import Mathlib

/-!
# Session client (static/js/main.js): a shallow embedding

The browser script keeps its state in module-level variables and mutates them
from event callbacks.  Each callback is embedded as a pure function from the
state before the callback to the state after it; asynchronous completions
(network responses, play-request rejections, end of playback) are events that
the environment delivers in some order.
-/

namespace Aegis

/-! ## JavaScript values that reach the colour routine -/

/-- The values a property read on the plain object `speakerColors` can give:
`undefined`, a string, or a member inherited from `Object.prototype`
(a function, or `Object.prototype` itself for `__proto__`). -/
inductive Value
  | undefined
  | str (s : String)
  | inherited (name : String)
  deriving DecidableEq, Repr

/-- JavaScript truthiness, as used by `if (speakerColors[speakerId])`. -/
def Value.truthy : Value → Bool
  | .undefined => false
  | .str s => s != ""
  | .inherited _ => true

/-- Property names that every object literal `{}` inherits from
`Object.prototype` (ECMAScript, including Annex B). -/
def objectPrototypeKeys : List String :=
  ["constructor", "__defineGetter__", "__defineSetter__", "hasOwnProperty",
   "__lookupGetter__", "__lookupSetter__", "isPrototypeOf",
   "propertyIsEnumerable", "toString", "valueOf", "__proto__", "toLocaleString"]

/-- Lines 22-33: `colorPalette`. -/
def colorPalette : List String :=
  ["#4CAF50", "#00bfff", "#ff5722", "#9c27b0", "#ff9800",
   "#2196f3", "#f44336", "#673ab7", "#009688", "#cddc39"]

/-- The expression `colorPalette[i]`: `undefined` past the end of the array. -/
def paletteAt (i : Nat) : Value :=
  match colorPalette.get? i with
  | some c => .str c
  | none => .undefined

/-- Line 21: `speakerColors`, the own properties of the object in insertion
order. -/
abbrev SpeakerColors := List (String × Value)

/-- The expression `Object.keys(speakerColors)`.  (JavaScript lists
integer-like keys first; the script only uses the length of this array and
visits each key once, so the order is immaterial here.) -/
def objectKeys (m : SpeakerColors) : List String := m.map Prod.fst

/-- The expression `speakerColors[k]` as a read: the own property if there is
one, else the member inherited from `Object.prototype`, else `undefined`. -/
def getProp (m : SpeakerColors) (k : String) : Value :=
  match m.lookup k with
  | some v => v
  | none => if k ∈ objectPrototypeKeys then .inherited k else .undefined

/-- The statement `speakerColors[k] = v`: overwrite the own property in place,
or add it at the end.  (The script reaches this statement only after the read
of `speakerColors[k]` was falsy.) -/
def setProp : SpeakerColors → String → Value → SpeakerColors
  | [], k, v => [(k, v)]
  | (k0, v0) :: rest, k, v =>
    if k0 = k then (k0, v) :: rest else (k0, v0) :: setProp rest k v

/-- The statement `delete speakerColors[k]`. -/
def deleteProp (m : SpeakerColors) (k : String) : SpeakerColors :=
  m.filter (fun e => e.1 != k)

/-- Lines 63-78: `getSpeakerColor`, returning the value and the colour map
after the call. -/
def getSpeakerColor (speakerColors : SpeakerColors) (speakerId : String) :
    Value × SpeakerColors :=
  if speakerId = "You" then
    (paletteAt 0, speakerColors)
  else if (getProp speakerColors speakerId).truthy then
    (getProp speakerColors speakerId, speakerColors)
  else
    let colorIndex := (objectKeys speakerColors).length % (colorPalette.length - 1) + 1
    let speakerColors1 := setProp speakerColors speakerId (paletteAt colorIndex)
    (getProp speakerColors1 speakerId, speakerColors1)

/-- Feeding ids one after another to `getSpeakerColor`: the values returned,
in order, and the final colour map. -/
def colorsFor : SpeakerColors → List String → List Value × SpeakerColors
  | m, [] => ([], m)
  | m, id :: ids =>
    let r := getSpeakerColor m id
    let rest := colorsFor r.2 ids
    (r.1 :: rest.1, rest.2)

/-- What a call leaves behind for its id: either the id is "You" and the value
is the reserved slot, or the read of the id is truthy and gives the value. -/
def Settled (m : SpeakerColors) (id : String) (v : Value) : Prop :=
  (id = "You" ∧ v = paletteAt 0) ∨
  (id ≠ "You" ∧ getProp m id = v ∧ v.truthy = true)

/-- The colour map is written by `getSpeakerColor` and by the reset step of a
successful session start (lines 118-122). -/
inductive ColorEvent
  | assign (speakerId : String)
  | reset
  deriving DecidableEq, Repr

/-- Lines 118-122: `Object.keys(speakerColors).forEach(key => ...)`, deleting
every key other than "You". -/
def resetSpeakerColors (speakerColors : SpeakerColors) : SpeakerColors :=
  (objectKeys speakerColors).foldl
    (fun acc key => if key != "You" then deleteProp acc key else acc) speakerColors

/-- One colour event applied to the colour map. -/
def colorStep (m : SpeakerColors) : ColorEvent → SpeakerColors
  | .assign speakerId => (getSpeakerColor m speakerId).2
  | .reset => resetSpeakerColors m

/-- The colour map after the events `evs`, delivered in order to the empty map
the page starts with. -/
def colorMapAfter (evs : List ColorEvent) : SpeakerColors :=
  evs.foldl colorStep []

/-! ## Chunks and the session client -/

/-- A chunk identifier as it arrives in JSON: an integer or a string. -/
inductive ChunkId
  | num (n : Int)
  | str (s : String)
  deriving DecidableEq, Repr

/-- JavaScript truthiness of an identifier: `0` and the empty string are falsy. -/
def ChunkId.truthy : ChunkId → Bool
  | .num n => n != 0
  | .str s => s != ""

/-- The text an identifier contributes to a template literal. -/
def ChunkId.toText : ChunkId → String
  | .num n => toString n
  | .str s => s

/-- A transcript chunk of the `/api/chunks` response. -/
structure Chunk where
  chunk_id : ChunkId
  source : Option String
  speaker_id : Option String
  timestamp : String
  text : String
  deriving DecidableEq, Repr

/-- Truthiness of an optional string field (`undefined` and "" are falsy). -/
def truthyField : Option String → Bool
  | some s => s != ""
  | none => false

/-- The expression `field || fallback`. -/
def orElseText (field : Option String) (fallback : String) : String :=
  match field with
  | some s => if s != "" then s else fallback
  | none => fallback

def playIcon : String := "<i class=\"fas fa-play\"></i>"

def pauseIcon : String := "<i class=\"fas fa-pause\"></i>"

/-- One rendered `div.transcription-chunk` (lines 238-299). -/
structure ChunkElement where
  className : String
  dataChunkId : String
  borderLeftColor : Value
  playButtonHTML : String
  audioPath : String
  timestamp : String
  badgeClass : String
  badgeText : String
  badgeColor : Value
  text : String
  deriving DecidableEq, Repr

/-- Lines 246-255: the display name and the key under which the chunk is
coloured. -/
def speakerNameAndKey (chunk : Chunk) : String × String :=
  if chunk.source = some "mic" then ("You", "You")
  else if truthyField chunk.speaker_id then
    (chunk.speaker_id.getD "", chunk.speaker_id.getD "")
  else ("Speaker", "Unknown Speaker")

/-- Lines 238-299: the body of the `forEach` in `appendChunks`, for one chunk:
the element appended to the container and the colour map afterwards. -/
def renderChunk (speakerColors : SpeakerColors) (chunk : Chunk) :
    ChunkElement × SpeakerColors :=
  let nk := speakerNameAndKey chunk
  let c := getSpeakerColor speakerColors nk.2
  ({ className := "transcription-chunk " ++ orElseText chunk.source "unknown",
     dataChunkId := chunk.chunk_id.toText,
     borderLeftColor := c.1,
     playButtonHTML := playIcon,
     audioPath := "/api/audio/" ++ chunk.chunk_id.toText,
     timestamp := chunk.timestamp,
     badgeClass := "source-badge " ++ orElseText chunk.source "unknown",
     badgeText := nk.1,
     badgeColor := c.1,
     text := chunk.text }, c.2)

/-- The controls and indicators that `updateUIState` writes. -/
structure UI where
  startBtnDisabled : Bool
  stopBtnDisabled : Bool
  downloadBtnDisabled : Bool
  statusActive : Bool
  statusText : String
  deriving DecidableEq, Repr

/-- The module-level state of the script (lines 2-21) together with the parts
of the page and of the window it writes: the rendered chunk list and the
interval timers that are armed. -/
structure Client where
  isRecording : Bool
  sessionId : Option String
  pollingInterval : Option Nat
  lastChunkId : Option ChunkId
  speakerColors : SpeakerColors
  ui : UI
  chunksContainer : List ChunkElement
  timers : List Nat
  nextTimer : Nat
  deriving DecidableEq, Repr

/-- The state when the page has loaded; the controls are as the markup `ui`
declares them.  `setInterval` hands out positive handles. -/
def pageLoad (ui : UI) : Client :=
  { isRecording := false, sessionId := none, pollingInterval := none,
    lastChunkId := none, speakerColors := [], ui := ui,
    chunksContainer := [], timers := [], nextTimer := 1 }

/-- Lines 81-99: `updateUIState`. -/
def updateUIState (s : Client) (recording : Bool) : Client :=
  { s with
    isRecording := recording,
    ui := { startBtnDisabled := recording,
            stopBtnDisabled := !recording,
            downloadBtnDisabled := recording,
            statusActive := recording,
            statusText := if recording then "Recording..." else "Inactive" } }

/-- Lines 387-392: `stopPolling`. -/
def stopPolling (s : Client) : Client :=
  match s.pollingInterval with
  | some h =>
    if h != 0 then
      { s with timers := s.timers.filter (fun t => t != h), pollingInterval := none }
    else s
  | none => s

/-- Lines 379-385: `startPolling`. -/
def startPolling (s : Client) : Client :=
  let s1 := stopPolling s
  { s1 with
    pollingInterval := some s1.nextTimer,
    timers := s1.timers ++ [s1.nextTimer],
    nextTimer := s1.nextTimer + 1 }

/-- The body of a `/api/start` response. -/
structure StartData where
  success : Bool
  session_id : String
  deriving DecidableEq, Repr

/-- Lines 101-130: `startRecording`, from the arrival of the response; `none`
is a rejected request or an unreadable body (the `catch` branch). -/
def startRecording (s : Client) (response : Option StartData) : Client :=
  match response with
  | some data =>
    if data.success then
      let s1 := { s with sessionId := some data.session_id }
      let s2 := updateUIState s1 true
      let s3 := startPolling s2
      let s4 := { s3 with speakerColors := resetSpeakerColors s3.speakerColors }
      { s4 with chunksContainer := [] }
    else s
  | none => s

/-- Lines 132-153: `stopRecording`, from the arrival of the response; the
argument is `data.success`, or `none` for the `catch` branch. -/
def stopRecording (s : Client) (response : Option Bool) : Client :=
  match response with
  | some true =>
    let s1 := updateUIState s false
    let s2 := stopPolling s1
    { s2 with ui := { s2.ui with downloadBtnDisabled := false } }
  | _ => s

/-- The body of a `/api/status` response. -/
structure StatusData where
  active : Bool
  session_id : String
  deriving DecidableEq, Repr

/-- Lines 394-411: `checkStatus`, from the arrival of the response. -/
def checkStatus (s : Client) (response : Option StatusData) : Client :=
  match response with
  | some data =>
    if data.active then
      let s1 := { s with sessionId := some data.session_id }
      let s2 := updateUIState s1 true
      startPolling s2
    else
      let s1 := updateUIState s false
      { s1 with ui := { s1.ui with downloadBtnDisabled := false } }
  | none => s

/-- Lines 222-223: the URL that `fetchChunks` requests. -/
def fetchChunksUrl (s : Client) : String :=
  let queryParams :=
    match s.lastChunkId with
    | some id => if id.truthy then "?last_chunk_id=" ++ id.toText else ""
    | none => ""
  "/api/chunks" ++ queryParams

/-- Lines 236-307: `appendChunks` (the legend and the scroll position are
derived from the state kept here and are not part of it). -/
def appendChunks (s : Client) : List Chunk → Client
  | [] => s
  | chunk :: chunks =>
    let r := renderChunk s.speakerColors chunk
    appendChunks
      { s with speakerColors := r.2, chunksContainer := s.chunksContainer ++ [r.1] }
      chunks

/-- The identifier of the last chunk of a list, `none` for the empty list. -/
def lastChunkIdOf (chunks : List Chunk) : Option ChunkId :=
  chunks.getLast?.map (fun c => c.chunk_id)

/-- Lines 224-233: `fetchChunks`, from the arrival of the response; the outer
`none` is the `catch` branch, the inner one a body without `chunks`. -/
def fetchChunks (s : Client) (response : Option (Option (List Chunk))) : Client :=
  match response with
  | some (some chunks) =>
    if chunks.length > 0 then
      let s1 := appendChunks s chunks
      { s1 with lastChunkId := lastChunkIdOf chunks }
    else s
  | _ => s

/-- The completions that the session control handles. -/
inductive SessionEvent
  | status (response : Option StatusData)
  | start (response : Option StartData)
  | stop (response : Option Bool)
  | chunks (response : Option (Option (List Chunk)))
  deriving DecidableEq, Repr

def sessionStep (s : Client) : SessionEvent → Client
  | .status r => checkStatus s r
  | .start r => startRecording s r
  | .stop r => stopRecording s r
  | .chunks r => fetchChunks s r

/-- The state after the events `evs`, delivered in order after page load. -/
def sessionRun (ui : UI) (evs : List SessionEvent) : Client :=
  evs.foldl sessionStep (pageLoad ui)

/-- A page whose markup starts with the stop control disabled. -/
def sampleMarkup : UI :=
  { startBtnDisabled := false, stopBtnDisabled := true, downloadBtnDisabled := false,
    statusActive := false, statusText := "Inactive" }

/-- A chunk from the microphone with the given identifier. -/
def micChunk (id : ChunkId) : Chunk :=
  { chunk_id := id, source := some "mic", speaker_id := none,
    timestamp := "00:00:01", text := "hello" }

/-! ## Audio playback -/

/-- What `playAudio` writes on a play control: its `innerHTML` and whether its
class list holds `playing`. -/
structure ButtonView where
  innerHTML : String
  playing : Bool
  deriving DecidableEq, Repr

/-- The shared `audio` element: its source, its `paused` attribute, and the
control that the current `onended` handler closes over. -/
structure AudioPlayer where
  src : String
  paused : Bool
  onended : Option Nat
  deriving DecidableEq, Repr

/-- The playback state.  Controls are named by numbers (DOM identity);
`audioPath b` is `dataset.audioPath` of control `b`; `pendingPlay` lists the
controls whose `play()` promise has not settled yet. -/
structure Player where
  currentlyPlayingButton : Option Nat
  buttons : Nat → ButtonView
  audioPath : Nat → String
  audioPlayer : AudioPlayer
  pendingPlay : List Nat

/-- The statements `b.innerHTML = play icon; b.classList.remove(playing)`. -/
def showPlay (buttons : Nat → ButtonView) (b : Nat) : Nat → ButtonView :=
  fun i => if i = b then { innerHTML := playIcon, playing := false } else buttons i

/-- The statements `b.innerHTML = pause icon; b.classList.add(playing)`. -/
def showPause (buttons : Nat → ButtonView) (b : Nat) : Nat → ButtonView :=
  fun i => if i = b then { innerHTML := pauseIcon, playing := true } else buttons i

/-- Lines 338-376: `playAudio`, up to its return (the rejection and `onended`
callbacks it installs run later, as `playRejected` and `playbackEnded`). -/
def playAudio (p : Player) (button : Nat) : Player :=
  let audioPath := p.audioPath button
  if p.currentlyPlayingButton = some button ∧ p.audioPlayer.paused = false then
    { p with
      audioPlayer := { p.audioPlayer with paused := true },
      buttons := showPlay p.buttons button,
      currentlyPlayingButton := none }
  else
    let buttons1 :=
      match p.currentlyPlayingButton with
      | some previous => showPlay p.buttons previous
      | none => p.buttons
    { p with
      currentlyPlayingButton := some button,
      buttons := showPause buttons1 button,
      audioPlayer := { src := audioPath, paused := false, onended := some button },
      pendingPlay := p.pendingPlay ++ [button] }

/-- Lines 363-368: the `catch` callback of the `play()` request started by a
click on `button`; it runs only if that request is still pending. -/
def playRejected (p : Player) (button : Nat) : Player :=
  if button ∈ p.pendingPlay then
    { p with
      pendingPlay := p.pendingPlay.erase button,
      buttons := showPlay p.buttons button,
      currentlyPlayingButton := none }
  else p

/-- Lines 371-375: the `onended` handler that the last `playAudio` installed.
(The element sets `paused` when playback reaches the end.) -/
def playbackEnded (p : Player) : Player :=
  match p.audioPlayer.onended with
  | some button =>
    { p with
      audioPlayer := { p.audioPlayer with paused := true },
      buttons := showPlay p.buttons button,
      currentlyPlayingButton := none }
  | none => p

/-- The events of the playback component. -/
inductive PlayerEvent
  | click (button : Nat)
  | rejected (button : Nat)
  | ended
  deriving DecidableEq, Repr

def playerStep (p : Player) : PlayerEvent → Player
  | .click b => playAudio p b
  | .rejected b => playRejected p b
  | .ended => playbackEnded p

/-- The playback state at page load, and after chunks were rendered: every
control shows the play icon (line 263), nothing is playing. -/
def playerLoad (audioPath : Nat → String) : Player :=
  { currentlyPlayingButton := none,
    buttons := fun _ => { innerHTML := playIcon, playing := false },
    audioPath := audioPath,
    audioPlayer := { src := "", paused := true, onended := none },
    pendingPlay := [] }

/-- The playback state after the events `evs`, delivered in order. -/
def playerRun (audioPath : Nat → String) (evs : List PlayerEvent) : Player :=
  evs.foldl playerStep (playerLoad audioPath)

/-- The "playing" visual state of a control: pause icon and `playing` class. -/
def showsPlaying (v : ButtonView) : Prop :=
  v.innerHTML = pauseIcon ∧ v.playing = true

instance (v : ButtonView) : Decidable (showsPlaying v) := by
  unfold showsPlaying; infer_instance

/-- The reset visual state of a control: play icon, no `playing` class. -/
def showsReset (v : ButtonView) : Prop :=
  v.innerHTML = playIcon ∧ v.playing = false

instance (v : ButtonView) : Decidable (showsReset v) := by
  unfold showsReset; infer_instance


/-- The audio path of control `b`, as line 264 sets it for a chunk with id `b`. -/
def samplePaths (b : Nat) : String := "/api/audio/" ++ toString b

/-- A rejection callback is timely when it arrives while no other control has
become the current one; `timely p evs` says so of every rejection in `evs`,
delivered from the state `p`. -/
def timely (p : Player) : List PlayerEvent → Bool
  | [] => true
  | ev :: evs =>
    (match ev with
     | .rejected b =>
       decide (p.currentlyPlayingButton = none ∨ p.currentlyPlayingButton = some b)
     | _ => true) && timely (playerStep p ev) evs

/-- Every control is either reset or is the current one and shows playing, and
the `onended` handler is bound to the current control. -/
def Exclusive (p : Player) : Prop :=
  (∀ i, p.buttons i = { innerHTML := playIcon, playing := false } ∨
    (p.buttons i = { innerHTML := pauseIcon, playing := true } ∧
      p.currentlyPlayingButton = some i)) ∧
  (∀ i, p.currentlyPlayingButton = some i → p.audioPlayer.onended = some i)

/-- The timer bookkeeping: the armed timers are exactly the handle held in
`pollingInterval`, handles are positive, and a recording client polls. -/
def TimerInv (s : Client) : Prop :=
  s.timers = s.pollingInterval.toList ∧
  (∀ h, s.pollingInterval = some h → h ≠ 0) ∧
  s.nextTimer ≠ 0 ∧
  (s.isRecording = true → s.pollingInterval.isSome = true)

/-- Whether an event is a completion of the status request. -/
def SessionEvent.isStatus : SessionEvent → Bool
  | .status _ => true
  | _ => false

/-- The status response, if it arrives at all, is the first completion. -/
def statusFirst (evs : List SessionEvent) : Prop :=
  ∀ ev ∈ evs.tail, ev.isStatus = false

instance (evs : List SessionEvent) : Decidable (statusFirst evs) := by
  unfold statusFirst; infer_instance

/-! ## Properties of the colour map primitives -/

theorem paletteAt_zero : paletteAt 0 = Value.str "#4CAF50" := by decide

theorem colorPalette_length_pred : colorPalette.length - 1 = 9 := by decide

/-- Every slot that line 75 can compute holds a non-empty colour string. -/
theorem paletteAt_slot_truthy (n : Nat) : (paletteAt (n % 9 + 1)).truthy = true := by
  have h : n % 9 < 9 := Nat.mod_lt _ (by decide)
  interval_cases (n % 9) <;> decide

theorem lookup_setProp_same (m : SpeakerColors) (k : String) (v : Value) :
    (setProp m k v).lookup k = some v := by
  induction m with
  | nil => simp [setProp, List.lookup]
  | cons e rest ih =>
    obtain ⟨k0, v0⟩ := e
    by_cases h : k0 = k
    · subst h; simp [setProp, List.lookup]
    · have h2 : (k == k0) = false := by simpa using fun h3 => h h3.symm
      simp [setProp, h, List.lookup, h2, ih]

theorem lookup_setProp_other (m : SpeakerColors) (k k2 : String) (v : Value)
    (hne : k2 ≠ k) : (setProp m k v).lookup k2 = m.lookup k2 := by
  induction m with
  | nil =>
    have h2 : (k2 == k) = false := by simpa using hne
    simp [setProp, List.lookup, h2]
  | cons e rest ih =>
    obtain ⟨k0, v0⟩ := e
    by_cases h : k0 = k
    · subst h
      have h2 : (k2 == k0) = false := by simpa using hne
      simp [setProp, List.lookup, h2]
    · by_cases h3 : k2 = k0
      · subst h3; simp [setProp, h, List.lookup]
      · have h4 : (k2 == k0) = false := by simpa using h3
        simp [setProp, h, List.lookup, h4, ih]

theorem getProp_setProp_same (m : SpeakerColors) (k : String) (v : Value) :
    getProp (setProp m k v) k = v := by
  simp [getProp, lookup_setProp_same]

theorem getProp_setProp_other (m : SpeakerColors) (k k2 : String) (v : Value)
    (hne : k2 ≠ k) : getProp (setProp m k v) k2 = getProp m k2 := by
  simp [getProp, lookup_setProp_other m k k2 v hne]

/-- The three branches of `getSpeakerColor`, as equations. -/
theorem getSpeakerColor_hit (m : SpeakerColors) (id : String) (h1 : id ≠ "You")
    (h2 : (getProp m id).truthy = true) :
    getSpeakerColor m id = (getProp m id, m) := by
  simp [getSpeakerColor, h1, h2]

theorem getSpeakerColor_miss (m : SpeakerColors) (id : String) (h1 : id ≠ "You")
    (h2 : (getProp m id).truthy = false) :
    getSpeakerColor m id
      = (paletteAt (m.length % 9 + 1), setProp m id (paletteAt (m.length % 9 + 1))) := by
  have h9 : colorPalette.length - 1 = 9 := by decide
  simp [getSpeakerColor, h1, h2, getProp_setProp_same, objectKeys, h9]

theorem getSpeakerColor_settles (m : SpeakerColors) (id : String) :
    Settled (getSpeakerColor m id).2 id (getSpeakerColor m id).1 := by
  by_cases h1 : id = "You"
  · simp [getSpeakerColor, h1, Settled]
  · by_cases h2 : (getProp m id).truthy = true
    · rw [getSpeakerColor_hit m id h1 h2]
      exact Or.inr ⟨h1, rfl, h2⟩
    · rw [getSpeakerColor_miss m id h1 (by simpa using h2)]
      exact Or.inr ⟨h1, getProp_setProp_same _ _ _, paletteAt_slot_truthy _⟩

theorem getSpeakerColor_of_settled (m : SpeakerColors) (id : String) (v : Value)
    (h : Settled m id v) : getSpeakerColor m id = (v, m) := by
  rcases h with ⟨h1, h2⟩ | ⟨h1, h2, h3⟩
  · simp [getSpeakerColor, h1, h2]
  · subst h2; exact getSpeakerColor_hit m id h1 h3

theorem settled_after_call (m : SpeakerColors) (id other : String) (v : Value)
    (h : Settled m id v) : Settled (getSpeakerColor m other).2 id v := by
  rcases h with ⟨h1, h2⟩ | ⟨h1, h2, h3⟩
  · exact Or.inl ⟨h1, h2⟩
  · right
    refine ⟨h1, ?_, h3⟩
    by_cases g1 : other = "You"
    · simpa [getSpeakerColor, g1] using h2
    · by_cases g2 : (getProp m other).truthy = true
      · rw [getSpeakerColor_hit m other g1 g2]; exact h2
      · rw [getSpeakerColor_miss m other g1 (by simpa using g2)]
        have hne : id ≠ other := by
          intro e; subst e; rw [h2] at g2; exact g2 h3
        show getProp (setProp m other _) id = v
        rw [getProp_setProp_other _ _ _ _ hne]; exact h2

theorem settled_after_calls (others : List String) (m : SpeakerColors) (id : String)
    (v : Value) (h : Settled m id v) : Settled (colorsFor m others).2 id v := by
  induction others generalizing m with
  | nil => simpa [colorsFor] using h
  | cons o rest ih =>
    simp only [colorsFor]
    exact ih _ (settled_after_call m id o v h)

/-! ## The colour routine -/

/-- C2: in every state of the colour map, `getSpeakerColor("You")` returns the
first palette colour, `#4CAF50`, and leaves the colour map as it was. -/
theorem getSpeakerColor_You (m : SpeakerColors) :
    getSpeakerColor m "You" = (paletteAt 0, m) ∧
    paletteAt 0 = Value.str "#4CAF50" ∧
    colorPalette.get? 0 = some "#4CAF50" := by
  refine ⟨?_, by decide, by decide⟩
  simp [getSpeakerColor]

/-- C3: in every state of the colour map and for every id, a second call of
`getSpeakerColor` right after the first returns the same value and does not
change the colour map; and after any further calls with any ids (no reset in
between), a call with the id still returns what the first call returned. -/
theorem getSpeakerColor_memoized (m : SpeakerColors) (id : String)
    (others : List String) :
    (getSpeakerColor (getSpeakerColor m id).2 id).1 = (getSpeakerColor m id).1 ∧
    (getSpeakerColor (getSpeakerColor m id).2 id).2 = (getSpeakerColor m id).2 ∧
    (getSpeakerColor (colorsFor (getSpeakerColor m id).2 others).2 id).1
      = (getSpeakerColor m id).1 := by
  have h := getSpeakerColor_settles m id
  refine ⟨?_, ?_, ?_⟩
  · rw [getSpeakerColor_of_settled _ _ _ h]
  · rw [getSpeakerColor_of_settled _ _ _ h]
  · rw [getSpeakerColor_of_settled _ _ _ (settled_after_calls others _ _ _ h)]

/-! ## Fresh speakers -/

theorem setProp_of_not_mem (m : SpeakerColors) (k : String) (v : Value)
    (h : k ∉ objectKeys m) : setProp m k v = m ++ [(k, v)] := by
  induction m with
  | nil => rfl
  | cons e rest ih =>
    obtain ⟨k0, v0⟩ := e
    have h0 : k0 ≠ k := by
      intro e; apply h; simp [objectKeys, e]
    have h1 : k ∉ objectKeys rest := by
      intro e; apply h; simp only [objectKeys, List.map_cons, List.mem_cons]
      exact Or.inr e
    simp [setProp, h0, ih h1]

theorem lookup_none_of_not_mem (m : SpeakerColors) (k : String)
    (h : k ∉ objectKeys m) : m.lookup k = none := by
  rw [List.lookup_eq_none_iff]
  intro e he
  have hne : k ≠ e.1 := by
    intro hk
    apply h
    simp only [objectKeys, List.mem_map]
    exact ⟨e, he, hk.symm⟩
  simpa using hne

theorem not_mem_of_lookup_none (m : SpeakerColors) (k : String)
    (h : m.lookup k = none) : k ∉ objectKeys m := by
  rw [List.lookup_eq_none_iff] at h
  intro hk
  simp only [objectKeys, List.mem_map] at hk
  obtain ⟨e, he, hek⟩ := hk
  have := h e he
  simp [hek] at this

/-- A speaker id that is not "You", is not the name of an inherited member and
is not a key of the map takes the assignment branch: the slot is computed from
the number of keys and the entry is added at the end. -/
theorem getSpeakerColor_fresh (m : SpeakerColors) (id : String) (h1 : id ≠ "You")
    (h2 : id ∉ objectPrototypeKeys) (h3 : id ∉ objectKeys m) :
    getSpeakerColor m id
      = (paletteAt (m.length % 9 + 1), m ++ [(id, paletteAt (m.length % 9 + 1))]) := by
  have hl := lookup_none_of_not_mem m id h3
  have hg : (getProp m id).truthy = false := by
    simp [getProp, hl, h2, Value.truthy]
  rw [getSpeakerColor_miss m id h1 hg, setProp_of_not_mem m id _ h3]

/-- A speaker id that names an inherited member and is not a key of the map
gets that member back, and nothing is recorded. -/
theorem getSpeakerColor_inherited (m : SpeakerColors) (id : String) (h1 : id ≠ "You")
    (h2 : id ∈ objectPrototypeKeys) (h3 : id ∉ objectKeys m) :
    getSpeakerColor m id = (Value.inherited id, m) := by
  have hl := lookup_none_of_not_mem m id h3
  have hg : getProp m id = Value.inherited id := by
    simp [getProp, hl, h2]
  have := getSpeakerColor_hit m id h1 (by rw [hg]; rfl)
  rw [this, hg]

theorem colorsFor_fresh (ids : List String) (m : SpeakerColors)
    (hnodup : ids.Nodup) (hyou : "You" ∉ ids)
    (hproto : ∀ id ∈ ids, id ∉ objectPrototypeKeys)
    (hnew : ∀ id ∈ ids, id ∉ objectKeys m) :
    (colorsFor m ids).1
      = (List.range ids.length).map (fun i => paletteAt ((m.length + i) % 9 + 1)) := by
  induction ids generalizing m with
  | nil => simp [colorsFor]
  | cons id rest ih =>
    have h1 : id ≠ "You" := fun e => hyou (by simp [e])
    have h2 := hproto id (by simp)
    have h3 := hnew id (by simp)
    rw [List.nodup_cons] at hnodup
    simp only [colorsFor, getSpeakerColor_fresh m id h1 h2 h3, List.length_cons,
      List.range_succ_eq_map, List.map_cons, List.map_map, Nat.add_zero]
    congr 1
    rw [ih _ hnodup.2 (fun h => hyou (List.mem_cons_of_mem _ h))
      (fun x hx => hproto x (List.mem_cons_of_mem _ hx))]
    · apply List.map_congr_left
      intro i _
      simp only [List.length_append, List.length_singleton, Function.comp, Nat.succ_eq_add_one]
      congr 2
      omega
    · intro x hx hmem
      simp only [objectKeys, List.map_append, List.map_cons, List.map_nil, List.mem_append,
        List.mem_singleton] at hmem
      rcases hmem with hmem | hmem
      · exact hnew x (List.mem_cons_of_mem _ hx) hmem
      · subst hmem; exact hnodup.1 hx

/-- From the empty colour map, pairwise distinct ids that are neither "You" nor
names of inherited members get the palette slots 1 to 9 in rotation, in
first-seen order: the first nine colours are pairwise distinct and are never
slot 0, and the tenth is the first again. -/
theorem colorsFor_rotation (ids : List String) (hnodup : ids.Nodup)
    (hyou : "You" ∉ ids) (hproto : ∀ id ∈ ids, id ∉ objectPrototypeKeys) :
    (colorsFor [] ids).1 = (List.range ids.length).map (fun i => paletteAt (i % 9 + 1)) ∧
    (∀ i < 9, ∀ j < 9, paletteAt (i % 9 + 1) = paletteAt (j % 9 + 1) → i = j) ∧
    (∀ i < 9, paletteAt (i % 9 + 1) ≠ paletteAt 0) ∧
    paletteAt (9 % 9 + 1) = paletteAt (0 % 9 + 1) := by
  refine ⟨?_, by decide, by decide, by decide⟩
  have := colorsFor_fresh ids [] hnodup hyou hproto (by simp [objectKeys])
  simpa using this

theorem colorsFor_rotation_witness :
    (colorsFor [] ["s1", "s2", "s3", "s4", "s5", "s6", "s7", "s8", "s9", "s10"]).1
      = (List.range 10).map (fun i => paletteAt (i % 9 + 1)) :=
  (colorsFor_rotation ["s1", "s2", "s3", "s4", "s5", "s6", "s7", "s8", "s9", "s10"]
    (by decide) (by decide) (by decide)).1

/-! ## The reset step and the reachable colour maps -/

theorem resetSpeakerColors_fold (ks : List String) (acc : SpeakerColors) :
    ks.foldl (fun acc key => if key != "You" then deleteProp acc key else acc) acc
      = acc.filter (fun e => decide (e.1 = "You" ∨ e.1 ∉ ks)) := by
  induction ks generalizing acc with
  | nil => simp
  | cons k ks ih =>
    rw [List.foldl_cons, ih]
    by_cases hk : k = "You"
    · subst hk
      simp only [bne_self_eq_false, Bool.false_eq_true, if_false]
      apply List.filter_congr
      intro e _
      by_cases he : e.1 = "You" <;> simp [he]
    · have hk2 : (k != "You") = true := by simpa using hk
      simp only [hk2, if_true, deleteProp, List.filter_filter]
      apply List.filter_congr
      intro e _
      by_cases he : e.1 = "You"
      · have : e.1 ≠ k := fun h => hk (h ▸ he)
        simp [he, this, Ne.symm hk]
      · by_cases hek : e.1 = k <;> simp [he, hek, hk]

/-- The reset keeps exactly the entries under the key "You". -/
theorem resetSpeakerColors_eq_filter (m : SpeakerColors) :
    resetSpeakerColors m = m.filter (fun e => e.1 == "You") := by
  unfold resetSpeakerColors
  rw [resetSpeakerColors_fold]
  apply List.filter_congr
  intro e he
  have : e.1 ∈ objectKeys m := by
    simp only [objectKeys, List.mem_map]; exact ⟨e, he, rfl⟩
  by_cases h : e.1 = "You" <;> simp [h, this]

theorem mem_objectKeys_setProp (m : SpeakerColors) (k k2 : String) (v : Value)
    (h : k2 ∈ objectKeys (setProp m k v)) : k2 = k ∨ k2 ∈ objectKeys m := by
  induction m with
  | nil => simpa [setProp, objectKeys] using h
  | cons e rest ih =>
    obtain ⟨k0, v0⟩ := e
    by_cases h0 : k0 = k
    · simp only [setProp, h0, if_true, objectKeys, List.map_cons, List.mem_cons] at h ⊢
      rcases h with h | h
      · exact Or.inl h
      · exact Or.inr (Or.inr h)
    · simp only [setProp, h0, if_false, objectKeys, List.map_cons, List.mem_cons] at h ⊢
      rcases h with h | h
      · exact Or.inr (Or.inl h)
      · rcases ih h with h | h
        · exact Or.inl h
        · exact Or.inr (Or.inr h)

theorem colorStep_no_You (m : SpeakerColors) (ev : ColorEvent)
    (h : "You" ∉ objectKeys m) : "You" ∉ objectKeys (colorStep m ev) := by
  cases ev with
  | reset =>
    simp only [colorStep, resetSpeakerColors_eq_filter]
    intro hmem
    simp only [objectKeys, List.mem_map, List.mem_filter] at hmem
    obtain ⟨e, ⟨he, _⟩, hk⟩ := hmem
    apply h
    simp only [objectKeys, List.mem_map]
    exact ⟨e, he, hk⟩
  | assign id =>
    simp only [colorStep]
    by_cases h1 : id = "You"
    · simpa [getSpeakerColor, h1] using h
    · by_cases h2 : (getProp m id).truthy = true
      · rw [getSpeakerColor_hit m id h1 h2]; exact h
      · rw [getSpeakerColor_miss m id h1 (by simpa using h2)]
        intro hmem
        rcases mem_objectKeys_setProp _ _ _ _ hmem with e | e
        · exact h1 e.symm
        · exact h e

theorem foldl_colorStep_no_You (evs : List ColorEvent) (m : SpeakerColors)
    (h : "You" ∉ objectKeys m) : "You" ∉ objectKeys (evs.foldl colorStep m) := by
  induction evs generalizing m with
  | nil => simpa using h
  | cons ev evs ih => exact ih _ (colorStep_no_You m ev h)

/-- No sequence of assignments and resets puts the key "You" into the colour
map: `getSpeakerColor` returns before the assignment for that id. -/
theorem colorMapAfter_no_You (evs : List ColorEvent) :
    "You" ∉ objectKeys (colorMapAfter evs) :=
  foldl_colorStep_no_You evs [] (by simp [objectKeys])

/-- In every reachable colour map the number of keys is the number of assigned
speakers other than "You", and an id that is not "You", does not name an
inherited member and has no entry yet gets `palette[(n mod 9) + 1]`, recorded
at the end of the map with every other entry unchanged. -/
theorem getSpeakerColor_fresh_reachable (evs : List ColorEvent) (id : String)
    (h1 : id ≠ "You") (h2 : id ∉ objectPrototypeKeys)
    (h3 : (colorMapAfter evs).lookup id = none) :
    ((objectKeys (colorMapAfter evs)).filter (fun k => k != "You")).length
      = (objectKeys (colorMapAfter evs)).length ∧
    getSpeakerColor (colorMapAfter evs) id
      = (paletteAt
          (((objectKeys (colorMapAfter evs)).filter (fun k => k != "You")).length
            % (colorPalette.length - 1) + 1),
         colorMapAfter evs ++
          [(id, paletteAt
            (((objectKeys (colorMapAfter evs)).filter (fun k => k != "You")).length
              % (colorPalette.length - 1) + 1))]) := by
  have hyou := colorMapAfter_no_You evs
  have hfilter : (objectKeys (colorMapAfter evs)).filter (fun k => k != "You")
      = objectKeys (colorMapAfter evs) := by
    rw [List.filter_eq_self]
    intro k hk
    have : k ≠ "You" := fun e => hyou (e ▸ hk)
    simpa using this
  refine ⟨by rw [hfilter], ?_⟩
  rw [hfilter, colorPalette_length_pred,
    getSpeakerColor_fresh _ id h1 h2 (not_mem_of_lookup_none _ _ h3)]
  simp [objectKeys]

theorem getSpeakerColor_fresh_reachable_witness :
    getSpeakerColor (colorMapAfter [.assign "s1", .reset, .assign "s2"]) "s3"
      = (Value.str "#ff5722", [("s2", Value.str "#00bfff"), ("s3", Value.str "#ff5722")]) := by
  have h := (getSpeakerColor_fresh_reachable [.assign "s1", .reset, .assign "s2"] "s3"
    (by decide) (by decide) (by decide)).2
  rw [h]; decide

/-! ## Ids that name inherited members -/

/-- C1 (defect): fed from the empty map, the ten pairwise distinct ids below,
none of them "You", do not get nine distinct palette colours followed by a
repeat of the first: the first id names a member that `speakerColors` inherits,
so the read on line 70 is truthy and that member is returned instead of a
colour, and the tenth id gets slot 9 rather than the value returned first. -/
theorem colorsFor_inherited_id :
    ["toString", "s2", "s3", "s4", "s5", "s6", "s7", "s8", "s9", "s10"].Nodup ∧
    "You" ∉ ["toString", "s2", "s3", "s4", "s5", "s6", "s7", "s8", "s9", "s10"] ∧
    (colorsFor [] ["toString", "s2", "s3", "s4", "s5", "s6", "s7", "s8", "s9", "s10"]).1
      = [Value.inherited "toString", Value.str "#00bfff", Value.str "#ff5722",
         Value.str "#9c27b0", Value.str "#ff9800", Value.str "#2196f3",
         Value.str "#f44336", Value.str "#673ab7", Value.str "#009688",
         Value.str "#cddc39"] ∧
    (colorsFor [] ["toString", "s2", "s3", "s4", "s5", "s6", "s7", "s8", "s9", "s10"]).1.get? 9
      ≠ (colorsFor [] ["toString", "s2", "s3", "s4", "s5", "s6", "s7", "s8", "s9", "s10"]).1.get? 0 := by
  decide

/-- C4 (defect): in the reachable colour map that holds one speaker, the id
"constructor" is not "You" and has no entry, yet `getSpeakerColor` returns the
inherited member and records nothing, where slot `(1 mod 9) + 1` was due. -/
theorem getSpeakerColor_inherited_id :
    "constructor" ≠ "You" ∧
    colorMapAfter [.assign "s1"] = [("s1", Value.str "#00bfff")] ∧
    (colorMapAfter [.assign "s1"]).lookup "constructor" = none ∧
    getSpeakerColor (colorMapAfter [.assign "s1"]) "constructor"
      = (Value.inherited "constructor", [("s1", Value.str "#00bfff")]) ∧
    paletteAt (1 % (colorPalette.length - 1) + 1) = Value.str "#ff5722" := by
  decide

/-! ## Session start and the colour map -/

theorem stopPolling_speakerColors (s : Client) :
    (stopPolling s).speakerColors = s.speakerColors := by
  unfold stopPolling
  split
  · split <;> rfl
  · rfl

theorem lookup_You_filter (m : SpeakerColors) :
    (m.filter (fun e => e.1 == "You")).lookup "You" = m.lookup "You" := by
  induction m with
  | nil => rfl
  | cons e rest ih =>
    obtain ⟨k0, v0⟩ := e
    by_cases h : k0 = "You"
    · subst h; simp [List.filter, List.lookup]
    · have h2 : ("You" == k0) = false := by simpa using fun e => h e.symm
      have h3 : (k0 == "You") = false := by simpa using h
      simp [List.filter_cons, h3, List.lookup_cons, h2, ih]

theorem startRecording_speakerColors (s : Client) (sid : String) :
    (startRecording s (some ⟨true, sid⟩)).speakerColors
      = s.speakerColors.filter (fun e => e.1 == "You") := by
  simp [startRecording, startPolling, stopPolling_speakerColors, updateUIState,
    resetSpeakerColors_eq_filter]

/-- C5: whatever the colour map before, after a successful start response the
colour map holds no key other than "You", holds "You" exactly if it did before,
and with the same colour; after an unsuccessful response or a failed request
the state, the colour map included, is as it was. -/
theorem startRecording_resets_speakerColors (s : Client) (sid : String) :
    (∀ k ∈ objectKeys (startRecording s (some ⟨true, sid⟩)).speakerColors, k = "You") ∧
    ("You" ∈ objectKeys (startRecording s (some ⟨true, sid⟩)).speakerColors
      ↔ "You" ∈ objectKeys s.speakerColors) ∧
    (startRecording s (some ⟨true, sid⟩)).speakerColors.lookup "You"
      = s.speakerColors.lookup "You" ∧
    startRecording s (some ⟨false, sid⟩) = s ∧
    startRecording s none = s := by
  rw [startRecording_speakerColors]
  refine ⟨?_, ?_, lookup_You_filter _, ?_, rfl⟩
  · intro k hk
    simp only [objectKeys, List.mem_map, List.mem_filter] at hk
    obtain ⟨e, ⟨_, he⟩, hk⟩ := hk
    rw [← hk]; simpa using he
  · simp only [objectKeys, List.mem_map, List.mem_filter]
    constructor
    · rintro ⟨e, ⟨he, _⟩, hk⟩; exact ⟨e, he, hk⟩
    · rintro ⟨e, he, hk⟩; exact ⟨e, ⟨he, by simpa using hk⟩, hk⟩
  · simp [startRecording]

/-! ## Fetching chunks -/

theorem appendChunks_spec (chunks : List Chunk) (s : Client) :
    (∃ rendered,
      (appendChunks s chunks).chunksContainer = s.chunksContainer ++ rendered ∧
      List.Forall₂ (fun e ch => ∃ m, e = (renderChunk m ch).1) rendered chunks) ∧
    (appendChunks s chunks).lastChunkId = s.lastChunkId ∧
    (appendChunks s chunks).isRecording = s.isRecording ∧
    (appendChunks s chunks).pollingInterval = s.pollingInterval ∧
    (appendChunks s chunks).timers = s.timers ∧
    (appendChunks s chunks).nextTimer = s.nextTimer := by
  induction chunks generalizing s with
  | nil => exact ⟨⟨[], by simp [appendChunks], List.Forall₂.nil⟩, rfl, rfl, rfl, rfl, rfl⟩
  | cons c cs ih =>
    obtain ⟨⟨rendered, h1, h2⟩, h3⟩ := ih
      { s with speakerColors := (renderChunk s.speakerColors c).2,
               chunksContainer := s.chunksContainer ++ [(renderChunk s.speakerColors c).1] }
    refine ⟨⟨(renderChunk s.speakerColors c).1 :: rendered, ?_, ?_⟩, ?_⟩
    · simp only [appendChunks]
      rw [h1]; simp
    · exact List.Forall₂.cons ⟨_, rfl⟩ h2
    · simpa [appendChunks] using h3

theorem renderChunk_dataChunkId (m : SpeakerColors) (c : Chunk) :
    (renderChunk m c).1.dataChunkId = c.chunk_id.toText ∧
    (renderChunk m c).1.text = c.text := ⟨rfl, rfl⟩

theorem rendered_fields (rendered : List ChunkElement) (chunks : List Chunk)
    (h : List.Forall₂ (fun e ch => ∃ m, e = (renderChunk m ch).1) rendered chunks) :
    rendered.map (fun e => e.dataChunkId) = chunks.map (fun ch => ch.chunk_id.toText) ∧
    rendered.map (fun e => e.text) = chunks.map (fun ch => ch.text) := by
  induction h with
  | nil => exact ⟨rfl, rfl⟩
  | cons hab _ ih =>
    obtain ⟨m, rfl⟩ := hab
    simp [ih.1, ih.2, (renderChunk_dataChunkId _ _).1, (renderChunk_dataChunkId _ _).2]

/-- C6: for every prior state, a response with a non-empty chunk list leaves
the rendered list equal to the previous one followed by one entry per returned
chunk, each the rendering of the chunk at the same position (so carrying its
id and text), and sets the last-seen id to the id of the final chunk; a
response with an empty or absent chunk list, or a failed request, leaves the
state as it was. -/
theorem fetchChunks_appends_in_order (s : Client) (c : Chunk) (cs : List Chunk) :
    (∃ rendered,
      (fetchChunks s (some (some (c :: cs)))).chunksContainer
        = s.chunksContainer ++ rendered ∧
      List.Forall₂ (fun e ch => ∃ m, e = (renderChunk m ch).1) rendered (c :: cs) ∧
      rendered.map (fun e => e.dataChunkId) = (c :: cs).map (fun ch => ch.chunk_id.toText) ∧
      rendered.map (fun e => e.text) = (c :: cs).map (fun ch => ch.text)) ∧
    (fetchChunks s (some (some (c :: cs)))).lastChunkId
      = some ((c :: cs).getLast (List.cons_ne_nil c cs)).chunk_id ∧
    fetchChunks s (some (some [])) = s ∧
    fetchChunks s (some none) = s ∧
    fetchChunks s none = s := by
  have hf : fetchChunks s (some (some (c :: cs)))
      = { appendChunks s (c :: cs) with lastChunkId := lastChunkIdOf (c :: cs) } := by
    simp [fetchChunks]
  obtain ⟨⟨rendered, h1, h2⟩, _⟩ := appendChunks_spec (c :: cs) s
  refine ⟨⟨rendered, ?_, h2, (rendered_fields _ _ h2).1, (rendered_fields _ _ h2).2⟩,
    ?_, by simp [fetchChunks], rfl, rfl⟩
  · rw [hf]; exact h1
  · rw [hf]
    simp [lastChunkIdOf, List.getLast?_eq_getLast]

/-- The example of the specification: chunks with ids 5 then 7 leave the
last-seen id at 7 and both rendered, in that order. -/
theorem fetchChunks_five_seven :
    (fetchChunks (pageLoad sampleMarkup)
      (some (some [micChunk (.num 5), micChunk (.num 7)]))).lastChunkId = some (.num 7) ∧
    (fetchChunks (pageLoad sampleMarkup)
      (some (some [micChunk (.num 5), micChunk (.num 7)]))).chunksContainer.map
        (fun e => e.dataChunkId) = ["5", "7"] := by
  have h := fetchChunks_appends_in_order (pageLoad sampleMarkup)
    (micChunk (.num 5)) [micChunk (.num 7)]
  refine ⟨by rw [h.2.1]; rfl, by decide⟩

/-- The request carries the filter whenever the last-seen id is truthy, and
omits it when there is none. -/
theorem fetchChunksUrl_truthy (s : Client) (id : ChunkId)
    (h : s.lastChunkId = some id) (ht : id.truthy = true) :
    fetchChunksUrl s = "/api/chunks" ++ ("?last_chunk_id=" ++ id.toText) := by
  simp [fetchChunksUrl, h, ht]

theorem fetchChunksUrl_truthy_witness :
    fetchChunksUrl (fetchChunks (pageLoad sampleMarkup) (some (some [micChunk (.num 7)])))
      = "/api/chunks" ++ ("?last_chunk_id=" ++ "7") :=
  fetchChunksUrl_truthy _ (.num 7) (by decide) (by decide)

/-- C7 (defect): after a fetch whose final chunk has the id 0, or the empty
string as id, a last-seen id is recorded, yet the next request carries no
filter: the test on line 222 is a truthiness test, and both ids are falsy.
With the id 7 the filter is carried. -/
theorem fetchChunksUrl_falsy_id :
    (fetchChunks (pageLoad sampleMarkup) (some (some [micChunk (.num 0)]))).lastChunkId
      = some (.num 0) ∧
    fetchChunksUrl (fetchChunks (pageLoad sampleMarkup) (some (some [micChunk (.num 0)])))
      = "/api/chunks" ∧
    (fetchChunks (pageLoad sampleMarkup) (some (some [micChunk (.str "")]))).lastChunkId
      = some (.str "") ∧
    fetchChunksUrl (fetchChunks (pageLoad sampleMarkup) (some (some [micChunk (.str "")])))
      = "/api/chunks" ∧
    fetchChunksUrl (pageLoad sampleMarkup) = "/api/chunks" ∧
    fetchChunksUrl (fetchChunks (pageLoad sampleMarkup) (some (some [micChunk (.num 7)])))
      = "/api/chunks?last_chunk_id=7" := by
  decide

/-! ## Audio playback -/

/-- C9: for distinct controls A and B, if B is the current control then after
`playAudio(A)` B is reset, A shows playing, A is the current control and the
shared source is the audio path of A; and if A is the current control and the
output is not paused then after `playAudio(A)` the output is paused, A is reset
and there is no current control. -/
theorem playAudio_switch_and_pause (p : Player) (a b : Nat) (hab : a ≠ b) :
    (p.currentlyPlayingButton = some b →
      showsReset ((playAudio p a).buttons b) ∧
      showsPlaying ((playAudio p a).buttons a) ∧
      (playAudio p a).currentlyPlayingButton = some a ∧
      (playAudio p a).audioPlayer.src = p.audioPath a) ∧
    (p.currentlyPlayingButton = some a → p.audioPlayer.paused = false →
      (playAudio p a).audioPlayer.paused = true ∧
      showsReset ((playAudio p a).buttons a) ∧
      (playAudio p a).currentlyPlayingButton = none) := by
  constructor
  · intro hb
    have hne : ¬ (some b = some a) := fun h => hab (Option.some.inj h).symm
    simp [playAudio, hb, hne, showsReset, showsPlaying, showPlay, showPause, hab,
      Ne.symm hab]
  · intro ha hp
    simp [playAudio, ha, hp, showsReset, showPlay]

theorem playAudio_switch_and_pause_witness :
    (showsReset ((playAudio (playerRun samplePaths [.click 1]) 0).buttons 1) ∧
      showsPlaying ((playAudio (playerRun samplePaths [.click 1]) 0).buttons 0) ∧
      (playAudio (playerRun samplePaths [.click 1]) 0).currentlyPlayingButton = some 0 ∧
      (playAudio (playerRun samplePaths [.click 1]) 0).audioPlayer.src = "/api/audio/0") ∧
    ((playAudio (playerRun samplePaths [.click 0]) 0).audioPlayer.paused = true ∧
      showsReset ((playAudio (playerRun samplePaths [.click 0]) 0).buttons 0) ∧
      (playAudio (playerRun samplePaths [.click 0]) 0).currentlyPlayingButton = none) :=
  ⟨(playAudio_switch_and_pause (playerRun samplePaths [.click 1]) 0 1 (by decide)).1
      (by decide),
   (playAudio_switch_and_pause (playerRun samplePaths [.click 0]) 0 1 (by decide)).2
      (by decide) (by decide)⟩

/-- C8 (defect): controls 0, 1 and 2 are clicked in turn, and the rejection of
the play request that the click on 0 started arrives after the click on 1.
The callback clears the current reference although it holds control 1, so
control 1 shows playing without being the current control, and after the
click on 2 two controls show playing. -/
theorem playAudio_stale_rejection :
    0 ∈ (playerRun samplePaths [.click 0, .click 1]).pendingPlay ∧
    showsPlaying ((playerRun samplePaths [.click 0, .click 1, .rejected 0]).buttons 1) ∧
    (playerRun samplePaths [.click 0, .click 1, .rejected 0]).currentlyPlayingButton = none ∧
    showsPlaying
      ((playerRun samplePaths [.click 0, .click 1, .rejected 0, .click 2]).buttons 1) ∧
    showsPlaying
      ((playerRun samplePaths [.click 0, .click 1, .rejected 0, .click 2]).buttons 2) ∧
    (playerRun samplePaths
      [.click 0, .click 1, .rejected 0, .click 2]).currentlyPlayingButton = some 2 := by
  decide

theorem exclusive_playerLoad (paths : Nat → String) : Exclusive (playerLoad paths) := by
  refine ⟨fun i => Or.inl rfl, ?_⟩
  intro i h
  simp [playerLoad] at h

theorem exclusive_playAudio (p : Player) (b : Nat) (h : Exclusive p) :
    Exclusive (playAudio p b) := by
  obtain ⟨h1, h2⟩ := h
  unfold playAudio
  by_cases hc : p.currentlyPlayingButton = some b ∧ p.audioPlayer.paused = false
  · simp only [hc, and_self, if_true]
    refine ⟨?_, by simp⟩
    intro i
    left
    by_cases hi : i = b
    · simp [showPlay, hi]
    · rcases h1 i with h | ⟨_, h⟩
      · simp [showPlay, hi, h]
      · rw [hc.1] at h; exact absurd (Option.some.inj h).symm hi
  · simp only [hc, if_false]
    refine ⟨?_, by simp⟩
    intro i
    by_cases hi : i = b
    · right; simp [showPause, hi]
    · left
      simp only [showPause, hi, if_false]
      cases hcur : p.currentlyPlayingButton with
      | none =>
        rcases h1 i with h | ⟨_, h⟩
        · exact h
        · rw [hcur] at h; cases h
      | some prev =>
        by_cases hp : i = prev
        · simp [showPlay, hp]
        · rcases h1 i with h | ⟨_, h⟩
          · simp [showPlay, hp, h]
          · rw [hcur] at h; exact absurd (Option.some.inj h).symm hp

theorem exclusive_playRejected (p : Player) (b : Nat) (h : Exclusive p)
    (ht : p.currentlyPlayingButton = none ∨ p.currentlyPlayingButton = some b) :
    Exclusive (playRejected p b) := by
  obtain ⟨h1, h2⟩ := h
  unfold playRejected
  by_cases hb : b ∈ p.pendingPlay
  · simp only [hb, if_true]
    refine ⟨?_, by simp⟩
    intro i
    left
    by_cases hi : i = b
    · simp [showPlay, hi]
    · rcases h1 i with h | ⟨_, h⟩
      · simp [showPlay, hi, h]
      · rcases ht with ht | ht
        · rw [ht] at h; cases h
        · rw [ht] at h; exact absurd (Option.some.inj h).symm hi
  · simp only [hb, if_false]; exact ⟨h1, h2⟩

theorem exclusive_playbackEnded (p : Player) (h : Exclusive p) :
    Exclusive (playbackEnded p) := by
  obtain ⟨h1, h2⟩ := h
  cases ho : p.audioPlayer.onended with
  | none =>
    have e : playbackEnded p = p := by simp [playbackEnded, ho]
    rw [e]; exact ⟨h1, h2⟩
  | some o =>
    have e : playbackEnded p =
        { p with
          audioPlayer := { p.audioPlayer with paused := true },
          buttons := showPlay p.buttons o,
          currentlyPlayingButton := none } := by simp [playbackEnded, ho]
    rw [e]
    refine ⟨?_, by simp⟩
    intro i
    left
    by_cases hi : i = o
    · simp [showPlay, hi]
    · rcases h1 i with h | ⟨_, h⟩
      · simp [showPlay, hi, h]
      · have := h2 i h
        rw [ho] at this
        exact absurd (Option.some.inj this).symm hi

theorem exclusive_foldl (evs : List PlayerEvent) (p : Player) (h : Exclusive p)
    (ht : timely p evs = true) : Exclusive (evs.foldl playerStep p) := by
  induction evs generalizing p with
  | nil => exact h
  | cons ev evs ih =>
    simp only [timely, Bool.and_eq_true] at ht
    apply ih _ _ ht.2
    cases ev with
    | click b => exact exclusive_playAudio p b h
    | rejected b => exact exclusive_playRejected p b h (by simpa using ht.1)
    | ended => exact exclusive_playbackEnded p h

/-- When every rejection callback is timely, in every state reached by clicks,
rejections and end-of-playback events at most one control shows playing, and a
control that shows playing is the current one. -/
theorem playerRun_exclusive_of_timely (paths : Nat → String) (evs : List PlayerEvent)
    (ht : timely (playerLoad paths) evs = true) :
    (∀ i, showsPlaying ((playerRun paths evs).buttons i) →
      (playerRun paths evs).currentlyPlayingButton = some i) ∧
    (∀ i j, showsPlaying ((playerRun paths evs).buttons i) →
      showsPlaying ((playerRun paths evs).buttons j) → i = j) := by
  have h := exclusive_foldl evs _ (exclusive_playerLoad paths) ht
  have key : ∀ i, showsPlaying ((playerRun paths evs).buttons i) →
      (playerRun paths evs).currentlyPlayingButton = some i := by
    intro i hi
    rcases h.1 i with h0 | ⟨_, h0⟩
    · unfold playerRun at hi
      rw [h0] at hi
      exact absurd hi.2 (by decide)
    · exact h0
  refine ⟨key, ?_⟩
  intro i j hi hj
  have := (key i hi).symm.trans (key j hj)
  exact Option.some.inj this

theorem playerRun_exclusive_of_timely_witness :
    ∀ i j, showsPlaying ((playerRun samplePaths
        [.click 0, .rejected 0, .click 1, .click 2, .ended, .click 1]).buttons i) →
      showsPlaying ((playerRun samplePaths
        [.click 0, .rejected 0, .click 1, .click 2, .ended, .click 1]).buttons j) → i = j :=
  (playerRun_exclusive_of_timely samplePaths
    [.click 0, .rejected 0, .click 1, .click 2, .ended, .click 1] (by decide)).2

/-! ## Polling and the recording flag -/

theorem timerInv_pageLoad (ui : UI) : TimerInv (pageLoad ui) := by
  simp [TimerInv, pageLoad]

theorem stopPolling_spec (s : Client) (h1 : s.timers = s.pollingInterval.toList)
    (h2 : ∀ h, s.pollingInterval = some h → h ≠ 0) :
    (stopPolling s).timers = [] ∧ (stopPolling s).pollingInterval = none ∧
    (stopPolling s).nextTimer = s.nextTimer ∧
    (stopPolling s).isRecording = s.isRecording := by
  unfold stopPolling
  cases hp : s.pollingInterval with
  | none => simp [h1, hp]
  | some t =>
    have := h2 t hp
    simp [h1, hp, this]

theorem startPolling_spec (s : Client) (h1 : s.timers = s.pollingInterval.toList)
    (h2 : ∀ h, s.pollingInterval = some h → h ≠ 0) :
    (startPolling s).timers = [s.nextTimer] ∧
    (startPolling s).pollingInterval = some s.nextTimer ∧
    (startPolling s).nextTimer = s.nextTimer + 1 ∧
    (startPolling s).isRecording = s.isRecording := by
  obtain ⟨a, b, c, d⟩ := stopPolling_spec s h1 h2
  simp [startPolling, a, c, d]

theorem checkStatus_active_spec (s : Client) (sid : String) (h : TimerInv s) :
    (checkStatus s (some ⟨true, sid⟩)).timers = [s.nextTimer] ∧
    (checkStatus s (some ⟨true, sid⟩)).pollingInterval = some s.nextTimer ∧
    (checkStatus s (some ⟨true, sid⟩)).nextTimer = s.nextTimer + 1 ∧
    (checkStatus s (some ⟨true, sid⟩)).isRecording = true := by
  obtain ⟨h1, h2, _, _⟩ := h
  have := startPolling_spec (updateUIState { s with sessionId := some sid } true) h1 h2
  simpa [checkStatus] using this

theorem checkStatus_inactive_spec (s : Client) (sid : String) :
    (checkStatus s (some ⟨false, sid⟩)).timers = s.timers ∧
    (checkStatus s (some ⟨false, sid⟩)).pollingInterval = s.pollingInterval ∧
    (checkStatus s (some ⟨false, sid⟩)).nextTimer = s.nextTimer ∧
    (checkStatus s (some ⟨false, sid⟩)).isRecording = false := by
  simp [checkStatus, updateUIState]

theorem startRecording_success_spec (s : Client) (sid : String) (h : TimerInv s) :
    (startRecording s (some ⟨true, sid⟩)).timers = [s.nextTimer] ∧
    (startRecording s (some ⟨true, sid⟩)).pollingInterval = some s.nextTimer ∧
    (startRecording s (some ⟨true, sid⟩)).nextTimer = s.nextTimer + 1 ∧
    (startRecording s (some ⟨true, sid⟩)).isRecording = true := by
  obtain ⟨h1, h2, _, _⟩ := h
  have := startPolling_spec (updateUIState { s with sessionId := some sid } true) h1 h2
  simpa [startRecording] using this

theorem stopRecording_success_spec (s : Client) (h : TimerInv s) :
    (stopRecording s (some true)).timers = [] ∧
    (stopRecording s (some true)).pollingInterval = none ∧
    (stopRecording s (some true)).nextTimer = s.nextTimer ∧
    (stopRecording s (some true)).isRecording = false := by
  obtain ⟨h1, h2, _, _⟩ := h
  have := stopPolling_spec (updateUIState s false) h1 h2
  simpa [stopRecording] using this

theorem fetchChunks_timer_fields (s : Client) (r : Option (Option (List Chunk))) :
    (fetchChunks s r).timers = s.timers ∧
    (fetchChunks s r).pollingInterval = s.pollingInterval ∧
    (fetchChunks s r).nextTimer = s.nextTimer ∧
    (fetchChunks s r).isRecording = s.isRecording := by
  rcases r with _ | _ | chunks
  · exact ⟨rfl, rfl, rfl, rfl⟩
  · exact ⟨rfl, rfl, rfl, rfl⟩
  · obtain ⟨_, _, a, b, c, d⟩ := appendChunks_spec chunks s
    cases chunks with
    | nil => exact ⟨rfl, rfl, rfl, rfl⟩
    | cons ch rest => simp [fetchChunks, a, b, c, d]

theorem timerInv_of_fields (s t : Client) (h : TimerInv s)
    (a : t.timers = s.timers) (b : t.pollingInterval = s.pollingInterval)
    (c : t.nextTimer = s.nextTimer)
    (d : t.isRecording = true → s.isRecording = true) : TimerInv t := by
  obtain ⟨h1, h2, h3, h4⟩ := h
  refine ⟨by rw [a, b, h1], by rw [b]; exact h2, by rw [c]; exact h3, ?_⟩
  intro ht; rw [b]; exact h4 (d ht)

theorem timerInv_armed (t : Client) (n : Nat) (hn : n ≠ 0)
    (a : t.timers = [n]) (b : t.pollingInterval = some n)
    (c : t.nextTimer = n + 1) : TimerInv t := by
  refine ⟨by rw [a, b]; rfl, ?_, by rw [c]; omega, by rw [b]; simp⟩
  intro h hh; rw [b] at hh; cases hh; exact hn

theorem timerInv_step (s : Client) (ev : SessionEvent) (h : TimerInv s) :
    TimerInv (sessionStep s ev) := by
  have h3 := h.2.2.1
  cases ev with
  | status r =>
    rcases r with _ | ⟨_ | _, sid⟩
    · exact h
    · obtain ⟨a, b, c, d⟩ := checkStatus_inactive_spec s sid
      exact timerInv_of_fields s _ h a b c (fun e => by rw [sessionStep, d] at e; cases e)
    · obtain ⟨a, b, c, _⟩ := checkStatus_active_spec s sid h
      exact timerInv_armed _ _ h3 a b c
  | start r =>
    rcases r with _ | ⟨_ | _, sid⟩
    · exact h
    · have e : sessionStep s (.start (some ⟨false, sid⟩)) = s := by
        simp [sessionStep, startRecording]
      rw [e]; exact h
    · obtain ⟨a, b, c, _⟩ := startRecording_success_spec s sid h
      exact timerInv_armed _ _ h3 a b c
  | stop r =>
    rcases r with _ | _ | _
    · exact h
    · exact h
    · obtain ⟨a, b, c, d⟩ := stopRecording_success_spec s h
      refine ⟨by rw [sessionStep, a, b]; rfl, ?_, by rw [sessionStep, c]; exact h3, ?_⟩
      · intro t ht; rw [sessionStep, b] at ht; cases ht
      · intro e; rw [sessionStep, d] at e; cases e
  | chunks r =>
    obtain ⟨a, b, c, d⟩ := fetchChunks_timer_fields s r
    exact timerInv_of_fields s _ h a b c (fun e => by rw [sessionStep, d] at e; exact e)

theorem timerInv_foldl (evs : List SessionEvent) (s : Client) (h : TimerInv s) :
    TimerInv (evs.foldl sessionStep s) := by
  induction evs generalizing s with
  | nil => exact h
  | cons ev evs ih => exact ih _ (timerInv_step s ev h)

/-- In every state reached from page load by completion events, at most one
polling timer is armed, the armed timer is the one whose handle
`pollingInterval` holds, and a client that is recording polls. -/
theorem sessionRun_timers (ui : UI) (evs : List SessionEvent) :
    (sessionRun ui evs).timers = (sessionRun ui evs).pollingInterval.toList ∧
    (sessionRun ui evs).timers.length ≤ 1 ∧
    ((sessionRun ui evs).isRecording = true → (sessionRun ui evs).timers ≠ []) := by
  obtain ⟨h1, _, _, h4⟩ := timerInv_foldl evs _ (timerInv_pageLoad ui)
  have e : evs.foldl sessionStep (pageLoad ui) = sessionRun ui evs := rfl
  rw [e] at h1 h4
  refine ⟨h1, ?_, ?_⟩
  · rw [h1]; cases (sessionRun ui evs).pollingInterval <;> simp
  · intro hr
    have := h4 hr
    rw [h1]
    cases hp : (sessionRun ui evs).pollingInterval with
    | none => rw [hp] at this; cases this
    | some t => simp

/-- C10 (defect): a start succeeds and then the answer to the status request
of page load arrives, reporting no active session.  `checkStatus` switches the
client to inactive without stopping the polling, so the timer stays armed
while `isRecording` is false. -/
theorem checkStatus_inactive_keeps_timer :
    (sessionRun sampleMarkup
      [.start (some ⟨true, "s1"⟩), .status (some ⟨false, ""⟩)]).isRecording = false ∧
    (sessionRun sampleMarkup
      [.start (some ⟨true, "s1"⟩), .status (some ⟨false, ""⟩)]).pollingInterval = some 1 ∧
    (sessionRun sampleMarkup
      [.start (some ⟨true, "s1"⟩), .status (some ⟨false, ""⟩)]).timers = [1] ∧
    (sessionRun sampleMarkup
      [.start (some ⟨true, "s1"⟩), .stop (some true)]).timers = [] := by
  decide

theorem recording_iff_step (s : Client) (ev : SessionEvent) (h : TimerInv s)
    (hj : s.isRecording = true ↔ s.pollingInterval.isSome = true)
    (hev : ev.isStatus = false ∨ s.pollingInterval = none) :
    ((sessionStep s ev).isRecording = true ↔
      (sessionStep s ev).pollingInterval.isSome = true) := by
  cases ev with
  | status r =>
    rcases hev with hev | hev
    · cases hev
    · rcases r with _ | ⟨_ | _, sid⟩
      · exact hj
      · obtain ⟨_, b, _, d⟩ := checkStatus_inactive_spec s sid
        rw [sessionStep, b, d, hev]; simp
      · obtain ⟨_, b, _, d⟩ := checkStatus_active_spec s sid h
        rw [sessionStep, b, d]; simp
  | start r =>
    rcases r with _ | ⟨_ | _, sid⟩
    · exact hj
    · have e : sessionStep s (.start (some ⟨false, sid⟩)) = s := by
        simp [sessionStep, startRecording]
      rw [e]; exact hj
    · obtain ⟨_, b, _, d⟩ := startRecording_success_spec s sid h
      rw [sessionStep, b, d]; simp
  | stop r =>
    rcases r with _ | _ | _
    · exact hj
    · exact hj
    · obtain ⟨_, b, _, d⟩ := stopRecording_success_spec s h
      rw [sessionStep, b, d]; simp
  | chunks r =>
    obtain ⟨_, b, _, d⟩ := fetchChunks_timer_fields s r
    rw [sessionStep, b, d]; exact hj

theorem recording_iff_foldl (evs : List SessionEvent) (s : Client) (h : TimerInv s)
    (hj : s.isRecording = true ↔ s.pollingInterval.isSome = true)
    (hev : ∀ ev ∈ evs, ev.isStatus = false) :
    ((evs.foldl sessionStep s).isRecording = true ↔
      (evs.foldl sessionStep s).pollingInterval.isSome = true) := by
  induction evs generalizing s with
  | nil => exact hj
  | cons ev evs ih =>
    exact ih _ (timerInv_step s ev h)
      (recording_iff_step s ev h hj (Or.inl (hev ev (by simp))))
      (fun e he => hev e (List.mem_cons_of_mem _ he))

/-- When the status response, if any, is the first completion to arrive, then
in every state reached from page load the polling timer is armed if and only
if `isRecording` is true. -/
theorem sessionRun_polling_iff (ui : UI) (evs : List SessionEvent)
    (h : statusFirst evs) :
    ((sessionRun ui evs).isRecording = true ↔ (sessionRun ui evs).timers ≠ []) := by
  have key : ((sessionRun ui evs).isRecording = true ↔
      (sessionRun ui evs).pollingInterval.isSome = true) := by
    cases evs with
    | nil => simp [sessionRun, pageLoad]
    | cons ev rest =>
      have h0 := timerInv_pageLoad ui
      exact recording_iff_foldl rest _ (timerInv_step _ ev h0)
        (recording_iff_step _ ev h0 (by simp [pageLoad]) (Or.inr rfl)) h
  rw [key, (sessionRun_timers ui evs).1]
  cases (sessionRun ui evs).pollingInterval <;> simp

theorem sessionRun_polling_iff_witness :
    ((sessionRun sampleMarkup
        [.status (some ⟨false, ""⟩), .start (some ⟨true, "s1"⟩), .chunks none,
         .stop (some true)]).isRecording = true ↔
      (sessionRun sampleMarkup
        [.status (some ⟨false, ""⟩), .start (some ⟨true, "s1"⟩), .chunks none,
         .stop (some true)]).timers ≠ []) :=
  sessionRun_polling_iff sampleMarkup
    [.status (some ⟨false, ""⟩), .start (some ⟨true, "s1"⟩), .chunks none,
     .stop (some true)] (by decide)

end Aegis
